import Mathlib

/-!
Verification of the deployify core: the failure-transition detector
(`src/core/failureTransitions.ts`), the deployment store
(`src/core/deploymentStore.ts`), the polling scheduler
(`src/core/pollingScheduler.ts`) and the notification gate
(`src/core/notificationService.ts`), shallowly embedded in Lean.

JavaScript `Map` objects are modelled as insertion-ordered association
lists: `set` replaces in place when the key is present and appends
otherwise, `get` returns the first (unique) matching entry, `delete`
filters.  ISO-8601 timestamps and `localeCompare` are modelled by Lean's
lexicographic `String` order.  An optional string field that the code
tests for truthiness (`result.error ? … : …`) is truthy exactly when it
is present and non-empty.
-/

namespace Deployify

/-- JS `Map.get`: the value at the entry with the given key.  A JS `Map`
holds at most one entry per key; on the association lists arising here the
first match is the only one. -/
def mapGet {α : Type} : List (String × α) → String → Option α
  | [], _ => none
  | e :: t, k => if e.1 = k then some e.2 else mapGet t k

/-- JS `Map.set`: replace the entry in place when the key is present, else
append a new entry at the end (insertion order preserved). -/
def mapSet {α : Type} : List (String × α) → String → α → List (String × α)
  | [], k, v => [(k, v)]
  | e :: t, k, v => if e.1 = k then (k, v) :: t else e :: mapSet t k v

/-- `DeploymentState` from `src/core/types.ts`. -/
inductive DeploymentState : Type
  | queued
  | building
  | ready
  | failed
  | canceled
deriving DecidableEq, Repr

/-- `EnvironmentRef` from `src/core/types.ts` (`type` is a free-form string). -/
structure EnvironmentRef : Type where
  id : String
  name : String
  type : String
deriving DecidableEq, Repr

/-- The optional `repo` link of a `HostedProject`. -/
structure RepoRef : Type where
  owner : String
  name : String
  branch : Option String
deriving DecidableEq, Repr

/-- `HostedProject` from `src/core/types.ts`. -/
structure HostedProject : Type where
  provider : String
  projectId : String
  name : String
  environments : List EnvironmentRef
  repo : Option RepoRef
deriving DecidableEq, Repr

/-- `DeploymentSummary` from `src/core/types.ts`. -/
structure DeploymentSummary : Type where
  provider : String
  projectId : String
  environment : String
  deploymentId : String
  state : DeploymentState
  url : Option String
  commitSha : Option String
  commitMessage : Option String
  author : Option String
  createdAt : String
  updatedAt : String
deriving DecidableEq, Repr

/-- `ProviderStatus` from `src/core/types.ts`. -/
structure ProviderStatus : Type where
  provider : String
  displayName : String
  connected : Bool
  lastSuccessAt : Option String
  lastAttemptAt : Option String
  staleSince : Option String
  error : Option String
deriving DecidableEq, Repr

/-- `ProviderFetchResult` from `src/core/types.ts`. -/
structure ProviderFetchResult : Type where
  provider : String
  connected : Bool
  projects : List HostedProject
  deployments : List DeploymentSummary
  error : Option String
  fetchedAt : String
deriving DecidableEq, Repr

/-- `DeploymentStoreSnapshot` from `src/core/types.ts`. -/
structure DeploymentStoreSnapshot : Type where
  projects : List HostedProject
  deployments : List DeploymentSummary
  providers : List ProviderStatus
  fetchedAt : Option String
deriving DecidableEq, Repr

/-- `DeploymentStoreUpdate` from `src/core/types.ts`. -/
structure DeploymentStoreUpdate : Type where
  previous : DeploymentStoreSnapshot
  current : DeploymentStoreSnapshot
deriving DecidableEq, Repr

/-- JS truthiness of an optional string field: present and non-empty. -/
def truthyStr : Option String → Bool
  | none => false
  | some s => s ≠ ""

/-! ## Failure transition detector (`src/core/failureTransitions.ts`) -/

/-- `keyForDeployment` in `failureTransitions.ts`:
`provider:projectId:environment`. -/
def keyForDeployment (d : DeploymentSummary) : String :=
  d.provider ++ ":" ++ d.projectId ++ ":" ++ d.environment

/-- The lookup map `new Map(previous.map(d => [key d, d.state]))`: built by
inserting the entries in list order, so a later entry for the same key
overwrites an earlier one. -/
def previousStateMap (previous : List DeploymentSummary) :
    List (String × DeploymentState) :=
  previous.foldl (fun m d => mapSet m (keyForDeployment d) d.state) []

/-- `findNewlyFailedDeployments` from `failureTransitions.ts`. -/
def findNewlyFailedDeployments (previous current : List DeploymentSummary) :
    List DeploymentSummary :=
  let previousMap := previousStateMap previous
  current.filter (fun d =>
    if d.state ≠ DeploymentState.failed then false
    else decide
      (mapGet previousMap (keyForDeployment d) ≠ some DeploymentState.failed))

/-- The claim C1 reads the lookup against `previous` as last-write-wins over
`previous`'s order: the state of the last element of `previous` carrying the
key, when any. -/
def lastStateFor (previous : List DeploymentSummary) (k : String) :
    Option DeploymentState :=
  (previous.reverse.find? (fun d => keyForDeployment d = k)).map
    (fun d => d.state)

/-! Basic association-list lemmas. -/

theorem mapGet_mapSet_self {α : Type} (m : List (String × α)) (k : String)
    (v : α) : mapGet (mapSet m k v) k = some v := by
  induction m with
  | nil => simp [mapGet, mapSet]
  | cons e t ih =>
    by_cases he : e.1 = k
    · simp [mapGet, mapSet, he]
    · simp [mapGet, mapSet, he, ih]

theorem mapGet_mapSet_ne {α : Type} (m : List (String × α)) (k k' : String)
    (v : α) (h : k' ≠ k) : mapGet (mapSet m k v) k' = mapGet m k' := by
  have hkk : ¬k = k' := fun hk => h hk.symm
  induction m with
  | nil => simp [mapGet, mapSet, hkk]
  | cons e t ih =>
    by_cases he : e.1 = k
    · have he' : ¬e.1 = k' := by rw [he]; exact hkk
      simp [mapGet, mapSet, he, he', hkk]
    · simp [mapGet, mapSet, he, ih]

/-- The fold-built lookup map realises last-write-wins: looking a key up in
`previousStateMap previous` returns the state of the last entry of
`previous` with that key. -/
theorem previousStateMap_eq_lastState (previous : List DeploymentSummary)
    (k : String) :
    mapGet (previousStateMap previous) k = lastStateFor previous k := by
  induction previous using List.reverseRecOn with
  | nil => simp [previousStateMap, lastStateFor, mapGet, List.find?]
  | append_singleton t d ih =>
    unfold previousStateMap at *
    rw [List.foldl_append]
    simp only [List.foldl_cons, List.foldl_nil]
    unfold lastStateFor
    rw [List.reverse_append]
    simp only [List.reverse_cons, List.reverse_nil, List.nil_append,
      List.singleton_append, List.find?]
    by_cases hk : keyForDeployment d = k
    · rw [hk, mapGet_mapSet_self]
      simp [hk]
    · have hk' : k ≠ keyForDeployment d := fun hkk => hk hkk.symm
      rw [mapGet_mapSet_ne _ _ _ _ hk']
      simpa [hk] using ih

/-- C1. `findNewlyFailedDeployments previous current` returns exactly the
elements of `current` whose state is `failed` and whose
(provider, projectId, environment) key is absent from `previous` or was
last mapped (last-write-wins over `previous`'s order) to a state other
than `failed`; in particular a failed current deployment whose key never
appears in `previous` is included. -/
theorem findNewlyFailedDeployments_exact
    (previous current : List DeploymentSummary) :
    findNewlyFailedDeployments previous current =
      current.filter (fun d =>
        d.state = DeploymentState.failed ∧
          lastStateFor previous (keyForDeployment d) ≠
            some DeploymentState.failed) := by
  unfold findNewlyFailedDeployments
  apply List.filter_congr
  intro d _
  rw [previousStateMap_eq_lastState]
  by_cases hs : d.state = DeploymentState.failed
  · simp [hs]
  · simp [hs]

/-! ## Deployment store (`src/core/deploymentStore.ts`) -/

/-- `projectKey` in `deploymentStore.ts`: `provider:projectId`. -/
def projectKey (provider projectId : String) : String :=
  provider ++ ":" ++ projectId

/-- `deploymentKey` in `deploymentStore.ts`:
`provider:projectId:deploymentId`. -/
def deploymentKey (d : DeploymentSummary) : String :=
  d.provider ++ ":" ++ d.projectId ++ ":" ++ d.deploymentId

/-- The private mutable state of a `DeploymentStore`.  The three JS `Map`s
are insertion-ordered association lists. -/
structure DeploymentStore : Type where
  providerStatus : List (String × ProviderStatus)
  projects : List (String × HostedProject)
  deployments : List (String × DeploymentSummary)
  fetchedAt : Option String
deriving DecidableEq, Repr

/-- The constructor: seeds `providerStatus` with disconnected records, one
per seed entry (id, displayName). -/
def mkStore (seedProviders : List (String × String)) : DeploymentStore :=
  { providerStatus := seedProviders.foldl (fun m p =>
      mapSet m p.1
        { provider := p.1, displayName := p.2, connected := false,
          lastSuccessAt := none, lastAttemptAt := none, staleSince := none,
          error := none }) []
    projects := []
    deployments := []
    fetchedAt := none }

/-- The comparator of `getSnapshot` for projects, as the relation
"compares ≤ 0": provider first, then name (`localeCompare` modelled as the
lexicographic string order). -/
def projectOrder (a b : HostedProject) : Prop :=
  a.provider < b.provider ∨ (a.provider = b.provider ∧ a.name ≤ b.name)

/-- The comparator of `getSnapshot` for deployments: provider, projectId,
environment, then `updatedAt` descending. -/
def deploymentOrder (a b : DeploymentSummary) : Prop :=
  a.provider < b.provider ∨
    (a.provider = b.provider ∧
      (a.projectId < b.projectId ∨
        (a.projectId = b.projectId ∧
          (a.environment < b.environment ∨
            (a.environment = b.environment ∧ b.updatedAt ≤ a.updatedAt)))))

/-- The comparator of `getSnapshot` for provider statuses: displayName. -/
def providerOrder (a b : ProviderStatus) : Prop :=
  a.displayName ≤ b.displayName

instance : DecidableRel projectOrder := fun a b => by
  unfold projectOrder; infer_instance

instance : DecidableRel deploymentOrder := fun a b => by
  unfold deploymentOrder; infer_instance

instance : DecidableRel providerOrder := fun a b => by
  unfold providerOrder; infer_instance

/-- `getSnapshot`: sorts the map values with the three comparators.  The JS
`Array.prototype.sort` is modelled by `List.insertionSort`, which produces
a list sorted under the comparator's "compares ≤ 0" relation, as any
comparison sort does. -/
def getSnapshot (s : DeploymentStore) : DeploymentStoreSnapshot :=
  { projects := List.insertionSort projectOrder
      (s.projects.map (fun e => e.2))
    deployments := List.insertionSort deploymentOrder
      (s.deployments.map (fun e => e.2))
    providers := List.insertionSort providerOrder
      (s.providerStatus.map (fun e => e.2))
    fetchedAt := s.fetchedAt }

/-- `initializeProvider`: no-op when the provider is already known, else
registers a disconnected status record. -/
def initializeProvider (s : DeploymentStore) (provider displayName : String) :
    DeploymentStore :=
  match mapGet s.providerStatus provider with
  | some _ => s
  | none =>
    { s with providerStatus := (mapSet s.providerStatus provider
        { provider := provider, displayName := displayName,
          connected := false, lastSuccessAt := none, lastAttemptAt := none,
          staleSince := none, error := none }) }

/-- `replaceProviderProjects`: delete every entry whose value's provider
matches, then set each incoming project under its key. -/
def replaceProviderProjects (m : List (String × HostedProject)) (p : String)
    (projects : List HostedProject) : List (String × HostedProject) :=
  projects.foldl
    (fun acc project =>
      mapSet acc (projectKey project.provider project.projectId) project)
    (m.filter (fun e => e.2.provider ≠ p))

/-- One step of `replaceProviderDeployments`'s insertion loop: an incoming
summary overwrites an existing entry with the same key only when its
`updatedAt` is strictly newer (`!existing || existing.updatedAt <
summary.updatedAt`). -/
def insertDeployment (m : List (String × DeploymentSummary))
    (d : DeploymentSummary) : List (String × DeploymentSummary) :=
  match mapGet m (deploymentKey d) with
  | none => mapSet m (deploymentKey d) d
  | some existing =>
    if existing.updatedAt < d.updatedAt then mapSet m (deploymentKey d) d
    else m

/-- `replaceProviderDeployments`: delete every entry whose value's provider
matches, then insert each incoming summary under the monotonic guard. -/
def replaceProviderDeployments (m : List (String × DeploymentSummary))
    (p : String) (deployments : List DeploymentSummary) :
    List (String × DeploymentSummary) :=
  deployments.foldl insertDeployment (m.filter (fun e => e.2.provider ≠ p))

/-- `applyProviderResult`.  Returns the new store state together with the
update events fired (`emitUpdate` fires exactly one).  The JS ternaries on
`result.error` test truthiness, so an empty-string error counts as no
error. -/
def applyProviderResult (s : DeploymentStore) (result : ProviderFetchResult) :
    DeploymentStore × List DeploymentStoreUpdate :=
  let previous := getSnapshot s
  let status := mapGet s.providerStatus result.provider
  let nextStatus : ProviderStatus :=
    { provider := result.provider
      displayName := (status.map (fun st => st.displayName)).getD
        result.provider
      connected := result.connected
      lastSuccessAt :=
        if truthyStr result.error then status.bind (fun st => st.lastSuccessAt)
        else some result.fetchedAt
      lastAttemptAt := some result.fetchedAt
      staleSince :=
        if truthyStr result.error then
          some ((status.bind (fun st => st.staleSince)).getD result.fetchedAt)
        else none
      error := result.error }
  let s1 := { s with
    providerStatus := mapSet s.providerStatus result.provider nextStatus }
  let s2 :=
    if truthyStr result.error then s1
    else
      { s1 with
        projects := replaceProviderProjects s1.projects result.provider
          result.projects
        deployments := replaceProviderDeployments s1.deployments
          result.provider result.deployments
        fetchedAt := some result.fetchedAt }
  (s2, [{ previous := previous, current := getSnapshot s2 }])

/-- `markProviderDisconnected(provider, message?)`: no-op (and no event)
when the provider is unknown; otherwise updates the status record, purges
the provider's rows (`clearProviderData`) and fires one update event.
`new Date().toISOString()` is the `now` parameter. -/
def markProviderDisconnected (s : DeploymentStore) (provider : String)
    (message : Option String) (now : String) :
    DeploymentStore × List DeploymentStoreUpdate :=
  match mapGet s.providerStatus provider with
  | none => (s, [])
  | some status =>
    let nextStatus : ProviderStatus :=
      { status with
        connected := false
        error := message
        lastAttemptAt := some now
        staleSince := none }
    let s1 := { s with
      providerStatus := mapSet s.providerStatus provider nextStatus
      projects := s.projects.filter (fun e => e.2.provider ≠ provider)
      deployments := s.deployments.filter (fun e => e.2.provider ≠ provider) }
    (s1, [{ previous := getSnapshot s, current := getSnapshot s1 }])

/-- One public mutation of the store, for quantifying over operation
sequences. -/
inductive StoreOp : Type
  | initOp (provider displayName : String)
  | applyOp (result : ProviderFetchResult)
  | disconnectOp (provider : String) (message : Option String) (now : String)

/-- Run one operation, discarding the emitted events. -/
def runOp (s : DeploymentStore) : StoreOp → DeploymentStore
  | StoreOp.initOp p dn => initializeProvider s p dn
  | StoreOp.applyOp r => (applyProviderResult s r).1
  | StoreOp.disconnectOp p msg now => (markProviderDisconnected s p msg now).1

/-- Run a sequence of operations. -/
def runOps (s : DeploymentStore) (ops : List StoreOp) : DeploymentStore :=
  ops.foldl runOp s

/-! ## Polling scheduler (`src/core/pollingScheduler.ts`)

The scheduler's asynchronous task is modelled by its outcome: `taskFails`
says whether `await this.task()` threw.  `Math.floor(Math.random() * 400)`
is the `jitter` parameter, a natural number below 400.  The pending
`setTimeout` handle is modelled by the delay it was armed with; the second
component of `runTask`/`triggerNow` records whether the call propagated
the task's error to its caller (`true` = rethrown). -/

/-- Scheduler state: `{running, pollIntervalMs, failureCount, timer}` plus
the constructor-fixed minimum interval. -/
structure PollingScheduler : Type where
  minimumIntervalSeconds : Nat
  running : Bool
  failureCount : Nat
  pollIntervalMs : Nat
  timer : Option Nat
deriving DecidableEq, Repr

/-- The constructor: clamps the configured interval to the minimum floor
(default 20 s) and converts to milliseconds. -/
def mkScheduler (pollIntervalSeconds : Nat)
    (minimumIntervalSeconds : Nat := 20) : PollingScheduler :=
  { minimumIntervalSeconds := minimumIntervalSeconds
    running := false
    failureCount := 0
    pollIntervalMs := max minimumIntervalSeconds pollIntervalSeconds * 1000
    timer := none }

/-- `setPollIntervalSeconds`: re-clamps and updates future scheduling. -/
def setPollIntervalSeconds (s : PollingScheduler) (seconds : Nat) :
    PollingScheduler :=
  { s with pollIntervalMs := max s.minimumIntervalSeconds seconds * 1000 }

/-- `schedule(delayMs)` (private): does nothing when stopped, else clears
any pending timer and arms a new one with the given delay. -/
def schedule (s : PollingScheduler) (delayMs : Nat) : PollingScheduler :=
  if !s.running then s else { s with timer := some delayMs }

/-- `start()`: no-op when already running, else sets the running flag and
schedules an immediate first run. -/
def start (s : PollingScheduler) : PollingScheduler :=
  if s.running then s else schedule { s with running := true } 0

/-- `stop()`: clears the running flag and the pending timer. -/
def stop (s : PollingScheduler) : PollingScheduler :=
  { s with running := false, timer := none }

/-- The 5-minute backoff cap, in milliseconds. -/
def backoffCapMs : Nat := 5 * 60000

/-- `runTask` (private, invoked by the armed timer), given the outcome of
the awaited task.  The catch block swallows the error, so the propagation
flag is always `false`. -/
def runTask (s : PollingScheduler) (taskFails : Bool) (jitter : Nat) :
    PollingScheduler × Bool :=
  if !s.running then (s, false)
  else if taskFails then
    let s1 := { s with failureCount := s.failureCount + 1 }
    let backoffMs := min backoffCapMs (s1.pollIntervalMs * 2 ^ s1.failureCount)
    (schedule s1 (backoffMs + jitter), false)
  else
    let s1 := { s with failureCount := 0 }
    (schedule s1 s1.pollIntervalMs, false)

/-- `triggerNow()`, given the outcome of the awaited task.  On failure it
performs the same failure-count/backoff update as a tick but rethrows
(propagation flag `true`). -/
def triggerNow (s : PollingScheduler) (taskFails : Bool) (jitter : Nat) :
    PollingScheduler × Bool :=
  if taskFails then
    let s1 := { s with failureCount := s.failureCount + 1 }
    let backoffMs := min backoffCapMs (s1.pollIntervalMs * 2 ^ s1.failureCount)
    let s2 := if s1.running then schedule s1 (backoffMs + jitter) else s1
    (s2, true)
  else
    let s1 := { s with failureCount := 0 }
    ((if s1.running then schedule s1 s1.pollIntervalMs else s1), false)

/-! ## Notification gate (`src/core/notificationService.ts`)

`handleStoreUpdate` returns the alerts it raises (one
`showWarningMessage` per newly failed deployment) next to the new service
state; the `deployify.notifyOnFailure` configuration read is the
`notifyOnFailure` parameter. -/

/-- Notification service state: the one-shot priming flag, `false` at
construction. -/
structure NotificationService : Type where
  hasPrimed : Bool
deriving DecidableEq, Repr

/-- The freshly constructed service. -/
def mkNotificationService : NotificationService :=
  { hasPrimed := false }

/-- `handleStoreUpdate`: bail out when notifications are disabled; consume
the first update silently (priming); afterwards alert once per newly
failed deployment. -/
def handleStoreUpdate (svc : NotificationService) (notifyOnFailure : Bool)
    (update : DeploymentStoreUpdate) :
    NotificationService × List DeploymentSummary :=
  if !notifyOnFailure then (svc, [])
  else if !svc.hasPrimed then ({ hasPrimed := true }, [])
  else
    (svc, findNewlyFailedDeployments update.previous.deployments
      update.current.deployments)

/-- Fold a sequence of updates through the service, keeping only the
state. -/
def handleAll (svc : NotificationService) (notifyOnFailure : Bool)
    (updates : List DeploymentStoreUpdate) : NotificationService :=
  updates.foldl (fun s u => (handleStoreUpdate s notifyOnFailure u).1) svc

/-! ## Claims about the scheduler -/

/-- C7.  On every task completion while running: on failure the failure
count is incremented and the timer is armed with
`min(5 min, pollIntervalMs * 2 ^ failureCount) + jitter` for the
post-increment failure count and a jitter draw in `[0, 400)`; on success
the failure count resets to 0 and the timer is armed with exactly
`pollIntervalMs`. -/
theorem runTask_backoff_and_reset (s : PollingScheduler) (jitter : Nat)
    (hrun : s.running = true) (_hjit : jitter < 400) :
    ((runTask s true jitter).1.failureCount = s.failureCount + 1 ∧
      (runTask s true jitter).1.timer =
        some (min backoffCapMs (s.pollIntervalMs * 2 ^ (s.failureCount + 1))
          + jitter)) ∧
    ((runTask s false jitter).1.failureCount = 0 ∧
      (runTask s false jitter).1.timer = some s.pollIntervalMs) := by
  simp [runTask, schedule, hrun]

/-- Witness for C7 at a concrete scheduler state. -/
theorem runTask_backoff_and_reset_witness :
    let s : PollingScheduler :=
      { minimumIntervalSeconds := 20, running := true, failureCount := 1,
        pollIntervalMs := 30000, timer := none }
    s.running = true ∧ 7 < 400 ∧
    ((runTask s true 7).1.failureCount = 2 ∧
      (runTask s true 7).1.timer = some (min backoffCapMs (30000 * 2 ^ 2) + 7)) ∧
    ((runTask s false 7).1.failureCount = 0 ∧
      (runTask s false 7).1.timer = some 30000) :=
  ⟨rfl, by decide, runTask_backoff_and_reset _ 7 rfl (by decide)⟩

/-- C8.  When the task throws, `triggerNow` increments the failure count,
arms the backoff timer when the scheduler is running, and rethrows to its
caller (propagation flag `true`); a timer tick (`runTask`) performs the
identical state update but swallows the error (propagation flag
`false`). -/
theorem triggerNow_rethrows_tick_swallows (s : PollingScheduler)
    (jitter : Nat) :
    (triggerNow s true jitter).2 = true ∧
    (triggerNow s true jitter).1.failureCount = s.failureCount + 1 ∧
    (s.running = true →
      (triggerNow s true jitter).1.timer =
        some (min backoffCapMs (s.pollIntervalMs * 2 ^ (s.failureCount + 1))
          + jitter)) ∧
    (runTask s true jitter).2 = false ∧
    (s.running = true →
      (triggerNow s true jitter).1 = (runTask s true jitter).1) := by
  refine ⟨rfl, ?_, ?_, ?_, ?_⟩
  · by_cases hrun : s.running = true
    · simp [triggerNow, schedule, hrun]
    · simp [triggerNow, schedule, hrun]
  · intro hrun
    simp [triggerNow, schedule, hrun]
  · by_cases hrun : s.running = true
    · simp [runTask, schedule, hrun]
    · simp [runTask, schedule, hrun]
  · intro hrun
    simp [triggerNow, runTask, schedule, hrun]

/-- Witness for C8 at a concrete running scheduler. -/
theorem triggerNow_rethrows_tick_swallows_witness :
    let s : PollingScheduler :=
      { minimumIntervalSeconds := 20, running := true, failureCount := 0,
        pollIntervalMs := 20000, timer := some 20000 }
    (triggerNow s true 3).2 = true ∧
    (triggerNow s true 3).1.failureCount = 1 ∧
    (s.running = true →
      (triggerNow s true 3).1.timer =
        some (min backoffCapMs (20000 * 2 ^ 1) + 3)) ∧
    (runTask s true 3).2 = false ∧
    (s.running = true → (triggerNow s true 3).1 = (runTask s true 3).1) :=
  triggerNow_rethrows_tick_swallows _ 3

/-! ## Claims about the notification gate -/

theorem handleAll_primed (notifyOnFailure : Bool)
    (updates : List DeploymentStoreUpdate) :
    handleAll { hasPrimed := true } notifyOnFailure updates =
      { hasPrimed := true } := by
  induction updates with
  | nil => rfl
  | cons u t ih =>
    unfold handleAll at *
    rw [List.foldl_cons]
    by_cases hb : notifyOnFailure
    · simpa [handleStoreUpdate, hb] using ih
    · rw [show (handleStoreUpdate { hasPrimed := true } notifyOnFailure
          u).1 = { hasPrimed := true } by simp [handleStoreUpdate, hb]]
      exact ih

/-- C9.  With failure notifications enabled throughout: the first update
event after construction yields zero alerts no matter its contents, and
any update handled after at least one earlier event yields exactly the
alerts returned by `findNewlyFailedDeployments` on that event's previous
and current deployment lists. -/
theorem notification_first_silent_then_detector
    (u1 u : DeploymentStoreUpdate) (us : List DeploymentStoreUpdate) :
    (handleStoreUpdate mkNotificationService true u).2 = [] ∧
    (handleStoreUpdate (handleAll mkNotificationService true (u1 :: us))
        true u).2 =
      findNewlyFailedDeployments u.previous.deployments
        u.current.deployments := by
  constructor
  · simp [handleStoreUpdate, mkNotificationService]
  · have h1 : handleAll mkNotificationService true (u1 :: us) =
        { hasPrimed := true } := by
      unfold handleAll
      rw [List.foldl_cons]
      have : (handleStoreUpdate mkNotificationService true u1).1 =
          { hasPrimed := true } := by
        simp [handleStoreUpdate, mkNotificationService]
      rw [this]
      exact handleAll_primed true us
    rw [h1]
    simp [handleStoreUpdate]

/-! ## Claims about the store -/

/-- C10.  A result for a provider never seeded and never initialized is
accepted: a status record is created whose `displayName` defaults to the
provider id itself, the result's data is applied exactly as it would be
for a known provider, and one update event is emitted. -/
theorem applyProviderResult_unknown_provider (s : DeploymentStore)
    (r : ProviderFetchResult)
    (h : mapGet s.providerStatus r.provider = none) :
    (mapGet (applyProviderResult s r).1.providerStatus r.provider).map
      (fun st => st.displayName) = some r.provider ∧
    (applyProviderResult s r).2.length = 1 ∧
    ∀ displayName,
      (applyProviderResult (initializeProvider s r.provider displayName)
          r).1.projects = (applyProviderResult s r).1.projects ∧
      (applyProviderResult (initializeProvider s r.provider displayName)
          r).1.deployments = (applyProviderResult s r).1.deployments ∧
      (applyProviderResult (initializeProvider s r.provider displayName)
          r).1.fetchedAt = (applyProviderResult s r).1.fetchedAt := by
  refine ⟨?_, rfl, ?_⟩
  · unfold applyProviderResult
    by_cases he : truthyStr r.error
    · simp [he, h, mapGet_mapSet_self]
    · simp [he, h, mapGet_mapSet_self]
  · intro displayName
    unfold initializeProvider
    rw [h]
    unfold applyProviderResult
    by_cases he : truthyStr r.error
    · simp [he]
    · simp [he]

/-- Witness for C10: a result for provider `"netlify"` applied to a store
seeded only with `"vercel"`. -/
theorem applyProviderResult_unknown_provider_witness :
    let s := mkStore [("vercel", "Vercel")]
    let r : ProviderFetchResult :=
      { provider := "netlify", connected := true, projects := [],
        deployments := [], error := none, fetchedAt := "2024-05-01T00:00:00Z" }
    mapGet s.providerStatus r.provider = none ∧
    ((mapGet (applyProviderResult s r).1.providerStatus r.provider).map
      (fun st => st.displayName) = some "netlify" ∧
    (applyProviderResult s r).2.length = 1) := by
  refine ⟨by decide, ?_, ?_⟩
  · exact (applyProviderResult_unknown_provider _ _ (by decide)).1
  · exact (applyProviderResult_unknown_provider _ _ (by decide)).2.1

/-- C5.  `markProviderDisconnected` on a known provider records
connected=false with the given message, clears `staleSince`, purges every
project and deployment row of that provider from the next snapshot, and
emits exactly one update event; on an unknown provider it leaves the
store unchanged and emits nothing. -/
theorem markProviderDisconnected_purges (s : DeploymentStore) (p : String)
    (message : Option String) (now : String) :
    (mapGet s.providerStatus p = none →
      markProviderDisconnected s p message now = (s, [])) ∧
    (∀ st, mapGet s.providerStatus p = some st →
      mapGet (markProviderDisconnected s p message now).1.providerStatus p =
        some { st with
          connected := false
          error := message
          lastAttemptAt := some now
          staleSince := none } ∧
      (getSnapshot (markProviderDisconnected s p message now).1).projects.all
        (fun pr => pr.provider ≠ p) ∧
      (getSnapshot
          (markProviderDisconnected s p message now).1).deployments.all
        (fun d => d.provider ≠ p) ∧
      (markProviderDisconnected s p message now).2.length = 1) := by
  constructor
  · intro h
    unfold markProviderDisconnected
    rw [h]
  · intro st h
    unfold markProviderDisconnected
    rw [h]
    refine ⟨mapGet_mapSet_self _ _ _, ?_, ?_, rfl⟩
    · rw [List.all_eq_true]
      intro pr hpr
      simp only [getSnapshot] at hpr
      have hmem := (List.perm_insertionSort projectOrder _).mem_iff.mp hpr
      rcases List.mem_map.mp hmem with ⟨e, he, rfl⟩
      rcases List.mem_filter.mp he with ⟨-, hpred⟩
      simpa using hpred
    · rw [List.all_eq_true]
      intro d hd
      simp only [getSnapshot] at hd
      have hmem := (List.perm_insertionSort deploymentOrder _).mem_iff.mp hd
      rcases List.mem_map.mp hmem with ⟨e, he, rfl⟩
      rcases List.mem_filter.mp he with ⟨-, hpred⟩
      simpa using hpred

/-- Witness for C5: both branches at concrete inputs — an unknown
provider is a no-op, and disconnecting `"vercel"` empties its rows. -/
theorem markProviderDisconnected_purges_witness :
    let store1 := (applyProviderResult (mkStore [("vercel", "Vercel")])
      { provider := "vercel"
        connected := true
        projects := [{ provider := "vercel", projectId := "p1", name := "app",
                       environments := [], repo := none }]
        deployments := []
        error := none
        fetchedAt := "2024-05-01T00:00:00Z" }).1
    markProviderDisconnected store1 "netlify" none "2024-05-02T00:00:00Z" =
      (store1, []) ∧
    (getSnapshot (markProviderDisconnected store1 "vercel" (some "gone")
        "2024-05-02T00:00:00Z").1).projects.all
      (fun pr => pr.provider ≠ "vercel") ∧
    (markProviderDisconnected store1 "vercel" (some "gone")
        "2024-05-02T00:00:00Z").2.length = 1 := by
  refine ⟨?_, ?_, ?_⟩
  · exact (markProviderDisconnected_purges _ "netlify" none _).1 (by decide)
  · exact ((markProviderDisconnected_purges _ "vercel" (some "gone") _).2
      { provider := "vercel", displayName := "Vercel", connected := true,
        lastSuccessAt := some "2024-05-01T00:00:00Z",
        lastAttemptAt := some "2024-05-01T00:00:00Z",
        staleSince := none, error := none } (by decide)).2.1
  · exact ((markProviderDisconnected_purges _ "vercel" (some "gone") _).2
      { provider := "vercel", displayName := "Vercel", connected := true,
        lastSuccessAt := some "2024-05-01T00:00:00Z",
        lastAttemptAt := some "2024-05-01T00:00:00Z",
        staleSince := none, error := none } (by decide)).2.2.2

/-- A store holding one vercel project, used by the counterexamples: the
result of one successful vercel fetch applied to an empty-seeded store. -/
def storeWithVercelProject : DeploymentStore :=
  (applyProviderResult (mkStore [("vercel", "Vercel")])
    { provider := "vercel"
      connected := true
      projects := [{ provider := "vercel", projectId := "p1", name := "app",
                     environments := [], repo := none }]
      deployments := []
      error := none
      fetchedAt := "2024-05-01T00:00:00Z" }).1

/-- C4 counterexample.  A fetch result whose `error` is set — to the empty
string — does not leave the provider's rows untouched: the JS ternaries
test `result.error` for truthiness, the empty string is falsy, and the
code takes the success path, replacing the provider's data (here: erasing
the project) and moving the store-wide `fetchedAt`. -/
theorem applyProviderResult_empty_error_changes_rows :
    let r : ProviderFetchResult :=
      { provider := "vercel"
        connected := false
        projects := []
        deployments := []
        error := some ""
        fetchedAt := "2024-05-02T00:00:00Z" }
    r.error ≠ none ∧
    storeWithVercelProject.projects ≠ [] ∧
    (applyProviderResult storeWithVercelProject r).1.projects = [] ∧
    (applyProviderResult storeWithVercelProject r).1.fetchedAt ≠
      storeWithVercelProject.fetchedAt := by
  refine ⟨by decide, by decide, by decide, by decide⟩

/-- C4 (amended).  For every fetch result whose `error` is a truthy
(non-empty) message, `applyProviderResult` leaves every project row, every
deployment row and the store-wide `fetchedAt` unchanged and leaves every
other provider's status untouched; the erroring provider's status gets
`lastAttemptAt := fetchedAt`, `staleSince := previous staleSince, or the
result's fetchedAt if previously unset`, the previous `lastSuccessAt`, and
the reported message as `error`. -/
theorem applyProviderResult_error_frame (s : DeploymentStore)
    (r : ProviderFetchResult) (h : truthyStr r.error = true) :
    (applyProviderResult s r).1.projects = s.projects ∧
    (applyProviderResult s r).1.deployments = s.deployments ∧
    (applyProviderResult s r).1.fetchedAt = s.fetchedAt ∧
    (∀ q, q ≠ r.provider →
      mapGet (applyProviderResult s r).1.providerStatus q =
        mapGet s.providerStatus q) ∧
    mapGet (applyProviderResult s r).1.providerStatus r.provider =
      some
        { provider := r.provider
          displayName := ((mapGet s.providerStatus r.provider).map
            (fun st => st.displayName)).getD r.provider
          connected := r.connected
          lastSuccessAt := (mapGet s.providerStatus r.provider).bind
            (fun st => st.lastSuccessAt)
          lastAttemptAt := some r.fetchedAt
          staleSince := some (((mapGet s.providerStatus r.provider).bind
            (fun st => st.staleSince)).getD r.fetchedAt)
          error := r.error } := by
  unfold applyProviderResult
  simp only [h, if_true]
  refine ⟨trivial, trivial, trivial, ?_, ?_⟩
  · intro q hq
    exact mapGet_mapSet_ne _ _ _ _ hq
  · exact mapGet_mapSet_self _ _ _

/-- Witness for C4 (amended): an erroring netlify result against the
vercel store leaves rows and `fetchedAt` alone and records the error. -/
theorem applyProviderResult_error_frame_witness :
    let r : ProviderFetchResult :=
      { provider := "netlify"
        connected := false
        projects := []
        deployments := []
        error := some "HTTP 500"
        fetchedAt := "2024-05-02T00:00:00Z" }
    truthyStr r.error = true ∧
    ((applyProviderResult storeWithVercelProject r).1.projects =
        storeWithVercelProject.projects ∧
      (applyProviderResult storeWithVercelProject r).1.deployments =
        storeWithVercelProject.deployments ∧
      (applyProviderResult storeWithVercelProject r).1.fetchedAt =
        storeWithVercelProject.fetchedAt) := by
  refine ⟨by decide, ?_⟩
  have h := applyProviderResult_error_frame storeWithVercelProject
    { provider := "netlify"
      connected := false
      projects := []
      deployments := []
      error := some "HTTP 500"
      fetchedAt := "2024-05-02T00:00:00Z" } (by decide)
  exact ⟨h.1, h.2.1, h.2.2.1⟩

/-! Further association-list lemmas, used by the merge claims. -/

theorem mapGet_none_of_forall {α : Type} (m : List (String × α)) (k : String)
    (h : ∀ e ∈ m, e.1 ≠ k) : mapGet m k = none := by
  induction m with
  | nil => rfl
  | cons e t ih =>
    have he : e.1 ≠ k := h e (List.mem_cons_self e t)
    simp only [mapGet, he, if_false]
    exact ih (fun f hf => h f (List.mem_cons_of_mem e hf))

theorem mapGet_filter_none {α : Type} (m : List (String × α))
    (pred : String × α → Bool) (k : String)
    (h : ∀ e ∈ m, e.1 = k → pred e = false) :
    mapGet (m.filter pred) k = none := by
  apply mapGet_none_of_forall
  intro e he hk
  rcases List.mem_filter.mp he with ⟨hm, hp⟩
  rw [h e hm hk] at hp
  exact Bool.false_ne_true hp

theorem mapGet_append_left_none {α : Type} (c m : List (String × α))
    (k : String) (hc : mapGet c k = none) :
    mapGet (c ++ m) k = mapGet m k := by
  induction c with
  | nil => rfl
  | cons e t ih =>
    by_cases he : e.1 = k
    · simp [mapGet, he] at hc
    · simp only [mapGet, he, if_false] at hc
      simpa [mapGet, he] using ih hc

theorem mapSet_eq_append {α : Type} (m : List (String × α)) (k : String)
    (v : α) (h : mapGet m k = none) : mapSet m k v = m ++ [(k, v)] := by
  induction m with
  | nil => rfl
  | cons e t ih =>
    by_cases he : e.1 = k
    · simp [mapGet, he] at h
    · simp only [mapGet, he, if_false] at h
      simp [mapSet, he, ih h]

theorem filter_idem {α : Type} (m : List α) (pred : α → Bool) :
    (m.filter pred).filter pred = m.filter pred := by
  induction m with
  | nil => rfl
  | cons e t ih =>
    by_cases he : pred e = true
    · simp [List.filter_cons, he, ih]
    · simp [List.filter_cons, he, ih]

theorem insertDeployment_of_none (m : List (String × DeploymentSummary))
    (d : DeploymentSummary) (h : mapGet m (deploymentKey d) = none) :
    insertDeployment m d = m ++ [(deploymentKey d, d)] := by
  unfold insertDeployment
  rw [h]
  exact mapSet_eq_append _ _ _ h

theorem applyProviderResult_success_deployments (s : DeploymentStore)
    (r : ProviderFetchResult) (he : truthyStr r.error = false) :
    (applyProviderResult s r).1.deployments =
      replaceProviderDeployments s.deployments r.provider r.deployments := by
  unfold applyProviderResult
  simp [he]

theorem applyProviderResult_success_projects (s : DeploymentStore)
    (r : ProviderFetchResult) (he : truthyStr r.error = false) :
    (applyProviderResult s r).1.projects =
      replaceProviderProjects s.projects r.provider r.projects := by
  unfold applyProviderResult
  simp [he]

/-- A ready deployment with the newer timestamp, for the C2/C3
counterexamples. -/
def depNewer : DeploymentSummary :=
  { provider := "vercel", projectId := "p1", environment := "production",
    deploymentId := "d1", state := DeploymentState.ready, url := none,
    commitSha := none, commitMessage := none, author := none,
    createdAt := "2024-05-01T00:00:00Z", updatedAt := "2024-05-02T00:00:00Z" }

/-- The same deployment identity with a strictly older `updatedAt`. -/
def depOlder : DeploymentSummary :=
  { provider := "vercel", projectId := "p1", environment := "production",
    deploymentId := "d1", state := DeploymentState.failed, url := none,
    commitSha := none, commitMessage := none, author := none,
    createdAt := "2024-05-01T00:00:00Z", updatedAt := "2024-05-01T06:00:00Z" }

/-- A successful vercel fetch result carrying the given deployments. -/
def vercelFetch (ds : List DeploymentSummary) (t : String) :
    ProviderFetchResult :=
  { provider := "vercel", connected := true, projects := [],
    deployments := ds, error := none, fetchedAt := t }

/-- C2 counterexample.  Two successive successful results for vercel, the
second carrying a strictly older deployment for the same identity: the
store ends up holding the second (older) value, not the first, because
`replaceProviderDeployments` deletes the provider's rows before the
monotonic guard can compare timestamps. -/
theorem crossBatch_merge_not_monotonic :
    let s1 := (applyProviderResult (mkStore [("vercel", "Vercel")])
      (vercelFetch [depNewer] "2024-05-02T00:00:00Z")).1
    let s2 := (applyProviderResult s1
      (vercelFetch [depOlder] "2024-05-03T00:00:00Z")).1
    depOlder.updatedAt < depNewer.updatedAt ∧
    mapGet s2.deployments (deploymentKey depNewer) = some depOlder ∧
    depOlder ≠ depNewer := by
  refine ⟨?_, by decide, by decide⟩
  show depOlder.updatedAt < depNewer.updatedAt
  rw [String.lt_iff_toList_lt]
  decide

/-- C2 (amended).  After two successive successful results for the same
provider where the second result's deployment for identity X has a
strictly older `updatedAt` than the first's, the store holds the SECOND
result's (older) deployment for X: a successful fetch replaces the
provider's rows wholesale, and the monotonic `updatedAt` guard applies
only within a single batch.  (`hclean` rules out entries of a foreign
provider sitting under X's key, which cannot arise from the store's own
insertions.) -/
theorem crossBatch_second_result_wins (s : DeploymentStore)
    (r1 r2 : ProviderFetchResult) (d1 d2 : DeploymentSummary)
    (hprov : r2.provider = r1.provider)
    (he1 : truthyStr r1.error = false) (he2 : truthyStr r2.error = false)
    (hd1 : r1.deployments = [d1]) (hd2 : r2.deployments = [d2])
    (hp1 : d1.provider = r1.provider) (_hp2 : d2.provider = r1.provider)
    (hkey : deploymentKey d2 = deploymentKey d1)
    (_hold : d2.updatedAt < d1.updatedAt)
    (hclean : ∀ e ∈ s.deployments,
      e.1 = deploymentKey d1 → e.2.provider = r1.provider) :
    mapGet
      (applyProviderResult (applyProviderResult s r1).1 r2).1.deployments
      (deploymentKey d2) = some d2 := by
  have hc_none :
      mapGet (s.deployments.filter (fun e => e.2.provider ≠ r1.provider))
        (deploymentKey d1) = none := by
    apply mapGet_filter_none
    intro e he hk
    simp [hclean e he hk]
  have h1 : (applyProviderResult s r1).1.deployments =
      s.deployments.filter (fun e => e.2.provider ≠ r1.provider) ++
        [(deploymentKey d1, d1)] := by
    rw [applyProviderResult_success_deployments _ _ he1, hd1]
    unfold replaceProviderDeployments
    rw [List.foldl_cons, List.foldl_nil]
    exact insertDeployment_of_none _ _ hc_none
  rw [applyProviderResult_success_deployments _ _ he2, hd2, hprov, h1]
  unfold replaceProviderDeployments
  rw [List.foldl_cons, List.foldl_nil, List.filter_append]
  have hdrop :
      [(deploymentKey d1, d1)].filter (fun e => e.2.provider ≠ r1.provider) =
        [] := by
    simp [hp1]
  rw [hdrop, List.append_nil, filter_idem]
  have h2 : mapGet
      (s.deployments.filter (fun e => e.2.provider ≠ r1.provider))
      (deploymentKey d2) = none := hkey.symm ▸ hc_none
  rw [insertDeployment_of_none _ _ h2, mapGet_append_left_none _ _ _ h2]
  simp [mapGet]

/-- Witness for C2 (amended) at the counterexample's concrete inputs. -/
theorem crossBatch_second_result_wins_witness :
    mapGet
      (applyProviderResult
        (applyProviderResult (mkStore [("vercel", "Vercel")])
          (vercelFetch [depNewer] "2024-05-02T00:00:00Z")).1
        (vercelFetch [depOlder] "2024-05-03T00:00:00Z")).1.deployments
      (deploymentKey depOlder) = some depOlder :=
  crossBatch_second_result_wins (mkStore [("vercel", "Vercel")])
    (vercelFetch [depNewer] "2024-05-02T00:00:00Z")
    (vercelFetch [depOlder] "2024-05-03T00:00:00Z")
    depNewer depOlder rfl rfl rfl rfl rfl rfl rfl rfl
    (by rw [String.lt_iff_toList_lt]; decide)
    (by intro e he hk; simp [mkStore] at he)

/-- The newer deployment's identity and timestamp with a different
payload (state `failed`), for the C3 tie counterexample. -/
def depTieFailed : DeploymentSummary :=
  { depNewer with state := DeploymentState.failed }

theorem mapSet_append_of_get_none {α : Type} (c m : List (String × α))
    (k : String) (v : α) (hc : mapGet c k = none) :
    mapSet (c ++ m) k v = c ++ mapSet m k v := by
  induction c with
  | nil => rfl
  | cons e t ih =>
    by_cases he : e.1 = k
    · simp [mapGet, he] at hc
    · simp only [mapGet, he, if_false] at hc
      simp [mapSet, he, ih hc]

theorem insertDeployment_of_some_lt (m : List (String × DeploymentSummary))
    (d ex : DeploymentSummary) (h : mapGet m (deploymentKey d) = some ex)
    (hlt : ex.updatedAt < d.updatedAt) :
    insertDeployment m d = mapSet m (deploymentKey d) d := by
  simp only [insertDeployment, h]
  rw [if_pos hlt]

theorem insertDeployment_of_some_ge (m : List (String × DeploymentSummary))
    (d ex : DeploymentSummary) (h : mapGet m (deploymentKey d) = some ex)
    (hge : ¬ex.updatedAt < d.updatedAt) :
    insertDeployment m d = m := by
  simp only [insertDeployment, h]
  rw [if_neg hge]

theorem foldl_insertDeployment_append (ds : List DeploymentSummary)
    (c : List (String × DeploymentSummary)) :
    ∀ m, (∀ d ∈ ds, mapGet c (deploymentKey d) = none) →
      ds.foldl insertDeployment (c ++ m) =
        c ++ ds.foldl insertDeployment m := by
  induction ds with
  | nil => intro m _; rfl
  | cons d t ih =>
    intro m h
    have hd := h d (List.mem_cons_self d t)
    have hstep : insertDeployment (c ++ m) d = c ++ insertDeployment m d := by
      cases hm : mapGet m (deploymentKey d) with
      | none =>
        have hm' : mapGet (c ++ m) (deploymentKey d) = none := by
          rw [mapGet_append_left_none _ _ _ hd]; exact hm
        rw [insertDeployment_of_none _ _ hm', insertDeployment_of_none _ _ hm,
          List.append_assoc]
      | some ex =>
        have hm' : mapGet (c ++ m) (deploymentKey d) = some ex := by
          rw [mapGet_append_left_none _ _ _ hd]; exact hm
        by_cases hlt : ex.updatedAt < d.updatedAt
        · rw [insertDeployment_of_some_lt _ _ _ hm' hlt,
            insertDeployment_of_some_lt _ _ _ hm hlt,
            mapSet_append_of_get_none _ _ _ _ hd]
        · rw [insertDeployment_of_some_ge _ _ _ hm' hlt,
            insertDeployment_of_some_ge _ _ _ hm hlt]
    rw [List.foldl_cons, List.foldl_cons, hstep]
    exact ih _ (fun q hq => h q (List.mem_cons_of_mem d hq))

theorem foldl_setProject_append (ps : List HostedProject)
    (c : List (String × HostedProject)) :
    ∀ m, (∀ pr ∈ ps, mapGet c (projectKey pr.provider pr.projectId) = none) →
      ps.foldl (fun acc pr =>
          mapSet acc (projectKey pr.provider pr.projectId) pr) (c ++ m) =
        c ++ ps.foldl (fun acc pr =>
          mapSet acc (projectKey pr.provider pr.projectId) pr) m := by
  induction ps with
  | nil => intro m _; rfl
  | cons pr t ih =>
    intro m h
    rw [List.foldl_cons, List.foldl_cons,
      mapSet_append_of_get_none _ _ _ _ (h pr (List.mem_cons_self pr t))]
    exact ih _ (fun q hq => h q (List.mem_cons_of_mem pr hq))

/-- C3 counterexample.  One successful batch carrying two entries with the
same (provider, projectId, deploymentId) identity and EQUAL `updatedAt`
but different payloads: the store keeps the earlier entry, whereas the
claim says the later entry overwrites whenever its `updatedAt` is greater
or equal.  The code's guard `existing.updatedAt < summary.updatedAt` is
strict. -/
theorem singleBatch_tie_keeps_earlier :
    let r := vercelFetch [depNewer, depTieFailed] "2024-05-02T01:00:00Z"
    let s := (applyProviderResult (mkStore [("vercel", "Vercel")]) r).1
    depTieFailed.updatedAt = depNewer.updatedAt ∧
    depTieFailed ≠ depNewer ∧
    mapGet s.deployments (deploymentKey depTieFailed) = some depNewer := by
  refine ⟨rfl, by decide, ?_⟩
  show mapGet (applyProviderResult (mkStore [("vercel", "Vercel")])
      (vercelFetch [depNewer, depTieFailed]
        "2024-05-02T01:00:00Z")).1.deployments
      (deploymentKey depTieFailed) = some depNewer
  rw [applyProviderResult_success_deployments _ _ (by decide)]
  unfold replaceProviderDeployments
  simp only [mkStore, vercelFetch, List.filter_nil]
  rw [List.foldl_cons, List.foldl_cons, List.foldl_nil,
    insertDeployment_of_none [] depNewer rfl, List.nil_append]
  have hget : mapGet [(deploymentKey depNewer, depNewer)]
      (deploymentKey depTieFailed) = some depNewer := by decide
  have hge : ¬depNewer.updatedAt < depTieFailed.updatedAt := by
    rw [String.lt_iff_toList_lt]
    decide
  rw [insertDeployment_of_some_ge _ _ _ hget hge]
  decide

/-- C3 (amended).  On a no-error `applyProviderResult` the provider's
project and deployment sets are replaced by exactly the data of the
incoming lists (other providers' rows are untouched and come first,
followed by the rows built from the incoming lists alone); within one
batch, a later entry with the same identity overwrites an earlier one
exactly when its `updatedAt` is STRICTLY greater (on ties the earlier
entry is kept).  The `hpclean`/`hdclean` hypotheses rule out a foreign
provider's row sitting under one of the incoming keys, which cannot arise
from the store's own insertions. -/
theorem successful_result_replaces_with_strict_guard (s : DeploymentStore)
    (r : ProviderFetchResult) (he : truthyStr r.error = false)
    (hpclean : ∀ e ∈ s.projects, e.2.provider ≠ r.provider →
      ∀ pr ∈ r.projects, e.1 ≠ projectKey pr.provider pr.projectId)
    (hdclean : ∀ e ∈ s.deployments, e.2.provider ≠ r.provider →
      ∀ d ∈ r.deployments, e.1 ≠ deploymentKey d) :
    (applyProviderResult s r).1.projects =
      s.projects.filter (fun e => e.2.provider ≠ r.provider) ++
        replaceProviderProjects [] r.provider r.projects ∧
    (applyProviderResult s r).1.deployments =
      s.deployments.filter (fun e => e.2.provider ≠ r.provider) ++
        replaceProviderDeployments [] r.provider r.deployments ∧
    (∀ d d2 : DeploymentSummary, deploymentKey d = deploymentKey d2 →
      replaceProviderDeployments [] r.provider [d, d2] =
        [(deploymentKey d2,
          if d.updatedAt < d2.updatedAt then d2 else d)]) := by
  refine ⟨?_, ?_, ?_⟩
  · rw [applyProviderResult_success_projects _ _ he]
    unfold replaceProviderProjects
    rw [List.filter_nil]
    conv_lhs => rw [← List.append_nil
      (s.projects.filter (fun e => e.2.provider ≠ r.provider))]
    apply foldl_setProject_append
    intro pr hpr
    apply mapGet_none_of_forall
    intro e he'
    rcases List.mem_filter.mp he' with ⟨hm, hp⟩
    exact hpclean e hm (by simpa using hp) pr hpr
  · rw [applyProviderResult_success_deployments _ _ he]
    unfold replaceProviderDeployments
    rw [List.filter_nil]
    conv_lhs => rw [← List.append_nil
      (s.deployments.filter (fun e => e.2.provider ≠ r.provider))]
    apply foldl_insertDeployment_append
    intro d hd
    apply mapGet_none_of_forall
    intro e he'
    rcases List.mem_filter.mp he' with ⟨hm, hp⟩
    exact hdclean e hm (by simpa using hp) d hd
  · intro d d2 hk
    unfold replaceProviderDeployments
    rw [List.filter_nil, List.foldl_cons, List.foldl_cons, List.foldl_nil,
      insertDeployment_of_none [] d rfl, List.nil_append]
    have hget : mapGet [(deploymentKey d, d)] (deploymentKey d2) = some d := by
      simp [mapGet, hk]
    by_cases hlt : d.updatedAt < d2.updatedAt
    · rw [insertDeployment_of_some_lt _ _ _ hget hlt, if_pos hlt]
      simp [mapSet, hk]
    · rw [insertDeployment_of_some_ge _ _ _ hget hlt, if_neg hlt, hk]

/-- Witness for C3 (amended) at concrete inputs: the tie batch applied to
an empty-seeded store. -/
theorem successful_result_replaces_with_strict_guard_witness :
    let s := mkStore [("vercel", "Vercel")]
    let r := vercelFetch [depNewer, depTieFailed] "2024-05-02T01:00:00Z"
    truthyStr r.error = false ∧
    ((applyProviderResult s r).1.deployments =
      s.deployments.filter (fun e => e.2.provider ≠ r.provider) ++
        replaceProviderDeployments [] r.provider r.deployments ∧
    replaceProviderDeployments [] r.provider [depNewer, depTieFailed] =
      [(deploymentKey depTieFailed,
        if depNewer.updatedAt < depTieFailed.updatedAt then depTieFailed
        else depNewer)]) := by
  refine ⟨by decide, ?_, ?_⟩
  · exact (successful_result_replaces_with_strict_guard
      (mkStore [("vercel", "Vercel")])
      (vercelFetch [depNewer, depTieFailed] "2024-05-02T01:00:00Z")
      (by decide)
      (by intro e he; simp [mkStore] at he)
      (by intro e he; simp [mkStore] at he)).2.1
  · exact (successful_result_replaces_with_strict_guard
      (mkStore [("vercel", "Vercel")])
      (vercelFetch [depNewer, depTieFailed] "2024-05-02T01:00:00Z")
      (by decide)
      (by intro e he; simp [mkStore] at he)
      (by intro e he; simp [mkStore] at he)).2.2 depNewer depTieFailed rfl

/-! ## C6: snapshot determinism — sortedness and uniqueness -/

theorem lexStr_trans {α : Type} (f : α → String) (t : α → α → Prop)
    (ht : ∀ a b c, t a b → t b c → t a c) :
    ∀ a b c : α, (f a < f b ∨ (f a = f b ∧ t a b)) →
      (f b < f c ∨ (f b = f c ∧ t b c)) →
      f a < f c ∨ (f a = f c ∧ t a c) := by
  intro a b c hab hbc
  rcases hab with h1 | ⟨h1, h2⟩ <;> rcases hbc with h3 | ⟨h3, h4⟩
  · exact Or.inl (lt_trans h1 h3)
  · exact Or.inl (lt_of_lt_of_eq h1 h3)
  · exact Or.inl (lt_of_eq_of_lt h1 h3)
  · exact Or.inr ⟨h1.trans h3, ht _ _ _ h2 h4⟩

theorem lexStr_total {α : Type} (f : α → String) (t : α → α → Prop)
    (ht : ∀ a b, t a b ∨ t b a) :
    ∀ a b : α, (f a < f b ∨ (f a = f b ∧ t a b)) ∨
      (f b < f a ∨ (f b = f a ∧ t b a)) := by
  intro a b
  rcases lt_trichotomy (f a) (f b) with h | h | h
  · exact Or.inl (Or.inl h)
  · rcases ht a b with h' | h'
    · exact Or.inl (Or.inr ⟨h, h'⟩)
    · exact Or.inr (Or.inr ⟨h.symm, h'⟩)
  · exact Or.inr (Or.inl h)

instance : IsTrans HostedProject projectOrder := by
  constructor
  intro a b c hab hbc
  exact lexStr_trans (fun p : HostedProject => p.provider)
    (fun a b => a.name ≤ b.name)
    (fun _ _ _ h1 h2 => le_trans h1 h2) a b c hab hbc

instance : IsTotal HostedProject projectOrder := by
  constructor
  intro a b
  exact lexStr_total (fun p : HostedProject => p.provider)
    (fun a b => a.name ≤ b.name) (fun a b => le_total a.name b.name) a b

instance : IsTrans DeploymentSummary deploymentOrder := by
  constructor
  intro a b c hab hbc
  exact lexStr_trans (fun d : DeploymentSummary => d.provider)
    (fun a b => a.projectId < b.projectId ∨ (a.projectId = b.projectId ∧
      (a.environment < b.environment ∨ (a.environment = b.environment ∧
        b.updatedAt ≤ a.updatedAt))))
    (lexStr_trans (fun d : DeploymentSummary => d.projectId)
      (fun a b => a.environment < b.environment ∨
        (a.environment = b.environment ∧ b.updatedAt ≤ a.updatedAt))
      (lexStr_trans (fun d : DeploymentSummary => d.environment)
        (fun a b => b.updatedAt ≤ a.updatedAt)
        (fun _ _ _ h1 h2 => le_trans h2 h1))) a b c hab hbc

instance : IsTotal DeploymentSummary deploymentOrder := by
  constructor
  intro a b
  exact lexStr_total (fun d : DeploymentSummary => d.provider)
    (fun a b => a.projectId < b.projectId ∨ (a.projectId = b.projectId ∧
      (a.environment < b.environment ∨ (a.environment = b.environment ∧
        b.updatedAt ≤ a.updatedAt))))
    (lexStr_total (fun d : DeploymentSummary => d.projectId)
      (fun a b => a.environment < b.environment ∨
        (a.environment = b.environment ∧ b.updatedAt ≤ a.updatedAt))
      (lexStr_total (fun d : DeploymentSummary => d.environment)
        (fun a b => b.updatedAt ≤ a.updatedAt)
        (fun a b => le_total b.updatedAt a.updatedAt))) a b

instance : IsTrans ProviderStatus providerOrder :=
  ⟨fun _ _ _ h1 h2 => le_trans h1 h2⟩

instance : IsTotal ProviderStatus providerOrder :=
  ⟨fun a b => le_total a.displayName b.displayName⟩

theorem mem_mapSet {α : Type} (m : List (String × α)) (k : String) (v : α)
    (e : String × α) : e ∈ mapSet m k v → e ∈ m ∨ e = (k, v) := by
  induction m with
  | nil =>
    intro h
    simp only [mapSet, List.mem_singleton] at h
    exact Or.inr h
  | cons f t ih =>
    intro h
    by_cases hf : f.1 = k
    · rw [show mapSet (f :: t) k v = (k, v) :: t by simp [mapSet, hf]] at h
      rcases List.mem_cons.mp h with he | he
      · exact Or.inr he
      · exact Or.inl (List.mem_cons_of_mem f he)
    · rw [show mapSet (f :: t) k v = f :: mapSet t k v by
        simp [mapSet, hf]] at h
      rcases List.mem_cons.mp h with he | he
      · exact Or.inl (he ▸ List.mem_cons_self f t)
      · rcases ih he with h1 | h1
        · exact Or.inl (List.mem_cons_of_mem f h1)
        · exact Or.inr h1

theorem keys_nodup_mapSet {α : Type} (m : List (String × α)) (k : String)
    (v : α) (h : (m.map (fun e => e.1)).Nodup) :
    ((mapSet m k v).map (fun e => e.1)).Nodup := by
  induction m with
  | nil => simp [mapSet]
  | cons f t ih =>
    by_cases hf : f.1 = k
    · rw [show mapSet (f :: t) k v = (k, v) :: t by simp [mapSet, hf]]
      simp only [List.map_cons] at h ⊢
      exact hf ▸ h
    · rw [show mapSet (f :: t) k v = f :: mapSet t k v by simp [mapSet, hf]]
      simp only [List.map_cons] at h ⊢
      rw [List.nodup_cons] at h ⊢
      obtain ⟨hf1, ht⟩ := h
      refine ⟨?_, ih ht⟩
      intro hmem
      rcases List.mem_map.mp hmem with ⟨e, he, heq⟩
      rcases mem_mapSet t k v e he with h1 | h1
      · exact hf1 (heq ▸ List.mem_map_of_mem (fun e => e.1) h1)
      · exact hf (by rw [← heq, h1])

/-- The store's private maps are well formed: keys are pairwise distinct
and every entry's key is the canonical key of its value. -/
def StoreWF (s : DeploymentStore) : Prop :=
  (s.projects.map (fun e => e.1)).Nodup ∧
  (∀ e ∈ s.projects, e.1 = projectKey e.2.provider e.2.projectId) ∧
  (s.deployments.map (fun e => e.1)).Nodup ∧
  (∀ e ∈ s.deployments, e.1 = deploymentKey e.2)

theorem keys_nodup_filter {α : Type} (m : List (String × α))
    (pred : String × α → Bool) (h : (m.map (fun e => e.1)).Nodup) :
    ((m.filter pred).map (fun e => e.1)).Nodup :=
  ((List.filter_sublist m).map (fun e => e.1)).nodup h

theorem insertDeployment_eq_or (m : List (String × DeploymentSummary))
    (d : DeploymentSummary) :
    insertDeployment m d = mapSet m (deploymentKey d) d ∨
      insertDeployment m d = m := by
  unfold insertDeployment
  cases mapGet m (deploymentKey d) with
  | none => exact Or.inl rfl
  | some ex =>
    by_cases h : ex.updatedAt < d.updatedAt
    · exact Or.inl (if_pos h)
    · exact Or.inr (if_neg h)

theorem foldl_setProject_wf (ps : List HostedProject) :
    ∀ m : List (String × HostedProject),
      (m.map (fun e => e.1)).Nodup →
      (∀ e ∈ m, e.1 = projectKey e.2.provider e.2.projectId) →
      ((ps.foldl (fun acc pr =>
          mapSet acc (projectKey pr.provider pr.projectId) pr) m).map
        (fun e => e.1)).Nodup ∧
      (∀ e ∈ ps.foldl (fun acc pr =>
          mapSet acc (projectKey pr.provider pr.projectId) pr) m,
        e.1 = projectKey e.2.provider e.2.projectId) := by
  induction ps with
  | nil => exact fun m hn hc => ⟨hn, hc⟩
  | cons pr t ih =>
    intro m hn hc
    rw [List.foldl_cons]
    apply ih
    · exact keys_nodup_mapSet _ _ _ hn
    · intro e he
      rcases mem_mapSet _ _ _ _ he with h1 | h1
      · exact hc e h1
      · rw [h1]

theorem foldl_insertDeployment_wf (ds : List DeploymentSummary) :
    ∀ m : List (String × DeploymentSummary),
      (m.map (fun e => e.1)).Nodup →
      (∀ e ∈ m, e.1 = deploymentKey e.2) →
      ((ds.foldl insertDeployment m).map (fun e => e.1)).Nodup ∧
      (∀ e ∈ ds.foldl insertDeployment m, e.1 = deploymentKey e.2) := by
  induction ds with
  | nil => exact fun m hn hc => ⟨hn, hc⟩
  | cons d t ih =>
    intro m hn hc
    rw [List.foldl_cons]
    rcases insertDeployment_eq_or m d with heq | heq <;> rw [heq]
    · apply ih
      · exact keys_nodup_mapSet _ _ _ hn
      · intro e he
        rcases mem_mapSet _ _ _ _ he with h1 | h1
        · exact hc e h1
        · rw [h1]
    · exact ih m hn hc

theorem initializeProvider_wf (s : DeploymentStore) (p dn : String)
    (h : StoreWF s) : StoreWF (initializeProvider s p dn) := by
  obtain ⟨hpn, hpc, hdn, hdc⟩ := h
  unfold initializeProvider
  cases mapGet s.providerStatus p with
  | none => exact ⟨hpn, hpc, hdn, hdc⟩
  | some st => exact ⟨hpn, hpc, hdn, hdc⟩

theorem applyProviderResult_wf (s : DeploymentStore)
    (r : ProviderFetchResult) (h : StoreWF s) :
    StoreWF (applyProviderResult s r).1 := by
  obtain ⟨hpn, hpc, hdn, hdc⟩ := h
  unfold applyProviderResult
  by_cases he : truthyStr r.error
  · simp only [he, if_true]
    exact ⟨hpn, hpc, hdn, hdc⟩
  · simp only [he, if_false]
    refine ⟨?_, ?_, ?_, ?_⟩
    · exact (foldl_setProject_wf r.projects _
        (keys_nodup_filter _ _ hpn)
        (fun e he' => hpc e (List.mem_of_mem_filter he'))).1
    · exact (foldl_setProject_wf r.projects _
        (keys_nodup_filter _ _ hpn)
        (fun e he' => hpc e (List.mem_of_mem_filter he'))).2
    · exact (foldl_insertDeployment_wf r.deployments _
        (keys_nodup_filter _ _ hdn)
        (fun e he' => hdc e (List.mem_of_mem_filter he'))).1
    · exact (foldl_insertDeployment_wf r.deployments _
        (keys_nodup_filter _ _ hdn)
        (fun e he' => hdc e (List.mem_of_mem_filter he'))).2

theorem markProviderDisconnected_wf (s : DeploymentStore) (p : String)
    (msg : Option String) (now : String) (h : StoreWF s) :
    StoreWF (markProviderDisconnected s p msg now).1 := by
  obtain ⟨hpn, hpc, hdn, hdc⟩ := h
  unfold markProviderDisconnected
  cases mapGet s.providerStatus p with
  | none => exact ⟨hpn, hpc, hdn, hdc⟩
  | some st =>
    refine ⟨keys_nodup_filter _ _ hpn, ?_, keys_nodup_filter _ _ hdn, ?_⟩
    · exact fun e he' => hpc e (List.mem_of_mem_filter he')
    · exact fun e he' => hdc e (List.mem_of_mem_filter he')

theorem runOp_wf (s : DeploymentStore) (op : StoreOp) (h : StoreWF s) :
    StoreWF (runOp s op) := by
  cases op with
  | initOp p dn => exact initializeProvider_wf s p dn h
  | applyOp r => exact applyProviderResult_wf s r h
  | disconnectOp p msg now => exact markProviderDisconnected_wf s p msg now h

theorem runOps_wf (ops : List StoreOp) :
    ∀ s : DeploymentStore, StoreWF s → StoreWF (runOps s ops) := by
  induction ops with
  | nil => exact fun s h => h
  | cons op t ih =>
    intro s h
    exact ih _ (runOp_wf s op h)

theorem mkStore_wf (seed : List (String × String)) : StoreWF (mkStore seed) :=
  ⟨List.nodup_nil, fun e he => absurd he (List.not_mem_nil e),
    List.nodup_nil, fun e he => absurd he (List.not_mem_nil e)⟩

theorem pairwise_values_of_nodup_keys {α : Type} (m : List (String × α))
    (keyfn : α → String) (R : α → α → Prop)
    (hn : (m.map (fun e => e.1)).Nodup)
    (hc : ∀ e ∈ m, e.1 = keyfn e.2)
    (hR : ∀ x y, keyfn x ≠ keyfn y → R x y) :
    (m.map (fun e => e.2)).Pairwise R := by
  rw [List.pairwise_map]
  have hn' : m.Pairwise (fun a b => a.1 ≠ b.1) := List.pairwise_map.mp hn
  refine List.Pairwise.imp_of_mem ?_ hn'
  intro a b ha hb hne
  exact hR a.2 b.2 (fun hk => hne (by rw [hc a ha, hc b hb, hk]))

/-- C6.  After any sequence of store operations on a freshly constructed
store, the snapshot's projects are sorted by (provider, name) and unique
by (provider, projectId); its deployments are sorted by (provider,
projectId, environment, updatedAt descending) and unique by (provider,
projectId, deploymentId); its providers are sorted by displayName. -/
theorem snapshot_sorted_and_unique (seed : List (String × String))
    (ops : List StoreOp) :
    List.Sorted projectOrder
      (getSnapshot (runOps (mkStore seed) ops)).projects ∧
    List.Sorted deploymentOrder
      (getSnapshot (runOps (mkStore seed) ops)).deployments ∧
    List.Sorted providerOrder
      (getSnapshot (runOps (mkStore seed) ops)).providers ∧
    List.Pairwise (fun a b : HostedProject =>
      ¬(a.provider = b.provider ∧ a.projectId = b.projectId))
      (getSnapshot (runOps (mkStore seed) ops)).projects ∧
    List.Pairwise (fun a b : DeploymentSummary =>
      ¬(a.provider = b.provider ∧ a.projectId = b.projectId ∧
        a.deploymentId = b.deploymentId))
      (getSnapshot (runOps (mkStore seed) ops)).deployments := by
  obtain ⟨hpn, hpc, hdn, hdc⟩ := runOps_wf ops (mkStore seed)
    (mkStore_wf seed)
  refine ⟨List.sorted_insertionSort _ _, List.sorted_insertionSort _ _,
    List.sorted_insertionSort _ _, ?_, ?_⟩
  · have hp := pairwise_values_of_nodup_keys _
      (fun pr : HostedProject => projectKey pr.provider pr.projectId)
      (fun a b => ¬(a.provider = b.provider ∧ a.projectId = b.projectId))
      hpn hpc
      (fun x y hk => fun hand =>
        hk (by show projectKey x.provider x.projectId =
                projectKey y.provider y.projectId
               rw [hand.1, hand.2]))
    exact ((List.perm_insertionSort projectOrder _).pairwise_iff
      (by intro x y h hand
          exact h ⟨hand.1.symm, hand.2.symm⟩)).mpr hp
  · have hd := pairwise_values_of_nodup_keys _
      (fun d : DeploymentSummary => deploymentKey d)
      (fun a b => ¬(a.provider = b.provider ∧ a.projectId = b.projectId ∧
        a.deploymentId = b.deploymentId))
      hdn hdc
      (fun x y hk => fun hand =>
        hk (by show deploymentKey x = deploymentKey y
               unfold deploymentKey
               rw [hand.1, hand.2.1, hand.2.2]))
    exact ((List.perm_insertionSort deploymentOrder _).pairwise_iff
      (by intro x y h hand
          exact h ⟨hand.1.symm, hand.2.1.symm, hand.2.2.symm⟩)).mpr hd

end Deployify
